import Mathlib

set_option maxRecDepth 8192

/-!
Verification development for the market-pulse snapshot updater
(`scripts/update_market_pulse.py`).

The script maintains a JSON snapshot of market indicators.  Its core is the
`append_series` / `upsert` merge logic, plus a run driver (`main`) that runs
four fetch pipelines and writes the merged snapshot.  We embed the relevant
Python functions shallowly:

* JSON values are modelled by the inductive type `JVal`.  Python numbers
  (int and float alike) are modelled as rationals (`Rat`); float NaN and
  representation issues are outside the claims considered here.
* Python dicts are modelled as association lists whose insert operation
  replaces in place (preserving position) and otherwise appends, matching
  the insertion-order semantics of Python dicts.
* Fallible Python code (attribute errors, JSON decode errors, file errors)
  is modelled with `Except Unit`.
* Network fetches are external; each fetch pipeline that the script wraps
  in a `try` block is modelled by an oracle of type `Except Unit α`: either
  the pipeline raises somewhere inside the `try`, or it produces a value.
-/

/-- JSON values as handled by the script (the in-memory result of
`json.load` and the values the script builds). -/
inductive JVal where
  | null : JVal
  | bool (b : Bool) : JVal
  | num (q : Rat) : JVal
  | str (s : String) : JVal
  | arr (xs : List JVal) : JVal
  | obj (kvs : List (String × JVal)) : JVal

/-- A Python dict with string keys (a JSON object), as an association list
with unique keys. -/
abbrev Item := List (String × JVal)

/-- Python `d[k]` lookup on a string-keyed dict, returning `none` when the
key is absent (`d.get(k)` with no default). -/
def jlookup : Item → String → Option JVal
  | [], _ => none
  | (k0, v0) :: rest, k => if k0 = k then some v0 else jlookup rest k

/-- Python `d.get(k, default)` on a string-keyed dict. -/
def jlookupD (o : Item) (k : String) (d : JVal) : JVal :=
  (jlookup o k).getD d

/-- Python `d[k] = v` on a string-keyed dict: replace in place if the key
exists, else append (insertion-order semantics of Python dicts). -/
def objSet : Item → String → JVal → Item
  | [], k, v => [(k, v)]
  | (k0, v0) :: rest, k, v =>
      if k0 = k then (k0, v) :: rest else (k0, v0) :: objSet rest k v

/-- Python truthiness (`if x:`) of a JSON value. -/
def pyTruthy : JVal → Bool
  | .null => false
  | .bool b => b
  | .num q => decide (q ≠ 0)
  | .str s => decide (s ≠ "")
  | .arr xs => !xs.isEmpty
  | .obj kvs => !kvs.isEmpty

/-- Python `x == value` where `value` is a float: floats compare equal to
ints and bools of the same numeric value (`True == 1.0` in Python); every
other type compares unequal.  `x` is the (optional) result of a dict
lookup, with an absent key giving Python `None`, which is unequal to any
float. -/
def pyEqNum : Option JVal → Rat → Bool
  | some (.num q), v => decide (q = v)
  | some (.bool b), v => decide ((if b then (1 : Rat) else 0) = v)
  | _, _ => false

/-- Python slice `xs[-n:]`: the last `n` elements (all of them when the
list is shorter than `n`). -/
def takeLast (n : Nat) (xs : List JVal) : List JVal :=
  xs.drop (xs.length - n)

/-- The series entry `\x7b"t": now_iso(), "v": value\x7d` appended by
`append_series`.  The timestamp string is a parameter of the model. -/
def seriesEntry (now : String) (v : Rat) : JVal :=
  .obj [("t", .str now), ("v", .num v)]

/-- The duplicate test of `append_series`:
`existing_series and isinstance(existing_series[-1], dict) and existing_series[-1].get("v") == value`. -/
def lastIsDup (xs : List JVal) (v : Rat) : Bool :=
  match xs.getLast? with
  | some (.obj kvs) => pyEqNum (jlookup kvs "v") v
  | _ => false

/-- `append_series(existing_series, value)` from the script: `None` leaves
the series untouched, a non-list series is reset to `[]`, a value equal to
the last recorded one is dropped, otherwise a timestamped entry is appended
and the series truncated to its last 120 points. -/
def append_series (now : String) (existing : JVal) (value : Option Rat) : JVal :=
  match value with
  | none => existing
  | some v =>
    let xs : List JVal :=
      match existing with
      | .arr l => l
      | _ => []
    if lastIsDup xs v then .arr xs
    else .arr (takeLast 120 (xs ++ [seriesEntry now v]))

/-- Python dict-key equality, restricted to hashable JSON scalars (an
unhashable key — a list or dict — raises before any comparison happens and
is modelled as an error where keys are formed).  Numbers and bools compare
across types as in Python (`True == 1`). -/
def pyKeyEq : JVal → JVal → Bool
  | .null, .null => true
  | .bool a, .bool b => a == b
  | .bool a, .num q => decide ((if a then (1 : Rat) else 0) = q)
  | .num q, .bool b => decide (q = (if b then (1 : Rat) else 0))
  | .num a, .num b => decide (a = b)
  | .str a, .str b => a == b
  | _, _ => false

/-- Whether a JSON value may be used as a Python dict key. -/
def isHashable : JVal → Bool
  | .arr _ => false
  | .obj _ => false
  | _ => true

/-- The in-memory `items_by_key` mapping of the script: a Python dict from
the value of each prior item's "key" field (an arbitrary hashable JSON
value, `None` when absent) to the item dict. -/
abbrev Items := List (JVal × Item)

/-- Dict lookup in `items_by_key`. -/
def dlookup : Items → JVal → Option Item
  | [], _ => none
  | (k0, v0) :: rest, k => if pyKeyEq k0 k then some v0 else dlookup rest k

/-- Dict assignment `items_by_key[key] = it`: replace in place when the key
exists, else append. -/
def dinsert : Items → JVal → Item → Items
  | [], k, v => [(k, v)]
  | (k0, v0) :: rest, k, v =>
      if pyKeyEq k0 k then (k0, v) :: rest else (k0, v0) :: dinsert rest k v

/-- The dict key under which a prior item is filed: `it.get("key")`, with
Python `None` (modelled `JVal.null`) when the field is absent. -/
def itemKey (kvs : Item) : JVal :=
  (jlookup kvs "key").getD .null

/-- Worker for `mkItemsByKey`, folding the prior items into a dict from the
left (so a later item with the same key overwrites an earlier one). -/
def mkItemsByKeyAux (d : Items) : List JVal → Except Unit Items
  | [] => .ok d
  | it :: rest =>
    match it with
    | .obj kvs =>
      if isHashable (itemKey kvs) then mkItemsByKeyAux (dinsert d (itemKey kvs) kvs) rest
      else .error ()
    | _ => mkItemsByKeyAux d rest

/-- The dict comprehension of `main`:
`\x7bit.get("key"): it for it in existing.get("items", []) if isinstance(it, dict)\x7d`.
Non-dict entries are skipped; an unhashable "key" field raises a
`TypeError`, modelled as an error. -/
def mkItemsByKey (items : List JVal) : Except Unit Items :=
  mkItemsByKeyAux [] items

/-- The fresh item constructed by `upsert` when `key` is not yet present. -/
def freshItem (key : String) (name unit fmt : JVal) (source_url : JVal) : Item :=
  [("key", .str key), ("name", name), ("unit", unit), ("format", fmt),
   ("source_url", source_url), ("series", .arr [])]

/-- `upsert(key, name, unit, fmt, value, source_url)` from `main`: fetch or
create the item for `key`, unconditionally overwrite name/unit/format,
overwrite source_url only when truthy, and merge the value into the series
via `append_series`.  The call sites pass a string `key`; name, unit,
format and source_url may be arbitrary JSON values (the wci call site reads
them from the manual-override document). -/
def upsert (now : String) (d : Items) (key : String) (name unit fmt : JVal)
    (value : Option Rat) (source_url : JVal) : Items :=
  let it0 : Item := (dlookup d (.str key)).getD (freshItem key name unit fmt source_url)
  let it1 := objSet it0 "name" name
  let it2 := objSet it1 "unit" unit
  let it3 := objSet it2 "format" fmt
  let it4 := if pyTruthy source_url then objSet it3 "source_url" source_url else it3
  let it5 := objSet it4 "series" (append_series now (jlookupD it4 "series" (.arr [])) value)
  dinsert d (.str key) it5

/-- Python `str(x)` as used on the "Name"/"Symbol" fields in `pick_symbol`.
String values pass through unchanged; the renderings of the other types are
deterministic stand-ins (no claim considered here depends on the exact
CPython rendering of a non-string field). -/
def pyStr : JVal → String
  | .null => "None"
  | .bool true => "True"
  | .bool false => "False"
  | .num q => toString q
  | .str s => s
  | .arr _ => "<list>"
  | .obj _ => "<dict>"

/-- ASCII lowercasing of one character.  Python `str.lower()` is
Unicode-aware; the keywords and search-result texts the script compares are
ASCII, so the ASCII mapping is used as the model. -/
def lowerChar (c : Char) : Char :=
  if 65 ≤ c.toNat ∧ c.toNat ≤ 90 then Char.ofNat (c.toNat + 32) else c

/-- Python `s.lower()` (ASCII model, see `lowerChar`). -/
def pyLower (s : String) : String := String.mk (s.data.map lowerChar)

/-- Substring search over character lists, the semantics of Python
`k in text` for strings (the empty string is contained in everything). -/
def subListAt : List Char → List Char → Bool
  | k, [] => k.isEmpty
  | k, c :: rest => List.isPrefixOf k (c :: rest) || subListAt k rest

/-- Python `k in text` substring containment. -/
def pyInStr (k text : String) : Bool :=
  subListAt k.data text.data

/-- The keyword test of `pick_symbol`:
`all(k in (name + " " + sym) for k in kw)` with
`name = str(row.get("Name", "")).lower()` and
`sym = str(row.get("Symbol", "")).lower()`.  Lowercasing is modelled by
`pyLower` (ASCII model; the keywords used by the script are ASCII). -/
def rowMatches (kw : List String) (r : Item) : Bool :=
  let name := pyLower (pyStr (jlookupD r "Name" (.str "")))
  let sym := pyLower (pyStr (jlookupD r "Symbol" (.str "")))
  kw.all fun k => pyInStr k (name ++ " " ++ sym)

/-- First loop of `pick_symbol`: the first row matching all keywords whose
"Symbol" is truthy; a non-dict row raises (`row.get` on a non-dict). -/
def pickLoop1 (kw : List String) : List JVal → Except Unit (Option JVal)
  | [] => .ok none
  | .obj r :: rest =>
      if rowMatches kw r && pyTruthy (jlookupD r "Symbol" .null) then
        .ok (some (jlookupD r "Symbol" .null))
      else pickLoop1 kw rest
  | _ :: _ => .error ()

/-- Second loop of `pick_symbol`: the first row with a truthy "Symbol". -/
def pickLoop2 : List JVal → Except Unit (Option JVal)
  | [] => .ok none
  | .obj r :: rest =>
      if pyTruthy (jlookupD r "Symbol" .null) then
        .ok (some (jlookupD r "Symbol" .null))
      else pickLoop2 rest
  | _ :: _ => .error ()

/-- `pick_symbol(search_results, keywords)` from the script: lowercase the
keywords, return the first keyword-matching row with a truthy symbol, else
fall back to the first row with a truthy symbol, else the empty string. -/
def pick_symbol (search_results : List JVal) (keywords : List String) : Except Unit JVal := do
  let kw := keywords.map pyLower
  match ← pickLoop1 kw search_results with
  | some s => pure s
  | none =>
    match ← pickLoop2 search_results with
    | some s => pure s
    | none => pure (.str "")

/-- Whether a JSON value is an object (`isinstance(it, dict)`). -/
def isObj : JVal → Bool
  | .obj _ => true
  | _ => false

/-- Modelled from the spec: the symbol-resolution rule exactly as the spec
words it — "select the first candidate whose concatenated name+symbol text
contains all of a given set of case-insensitive keywords; if none match,
fall back to the first candidate with a non-empty symbol; if no candidates
exist, resolution fails".  Note the primary clause places no condition on
the matching candidate having a non-empty symbol.  Used to compare the
spec wording with `pick_symbol`. -/
def pick_symbol_specModel (search_results : List JVal) (keywords : List String) : JVal :=
  let kw := keywords.map pyLower
  match search_results.findSome? (fun it =>
      match it with
      | .obj r => if rowMatches kw r then some (jlookupD r "Symbol" .null) else none
      | _ => none) with
  | some s => s
  | none =>
    match search_results.findSome? (fun it =>
        match it with
        | .obj r =>
          if pyTruthy (jlookupD r "Symbol" .null) then some (jlookupD r "Symbol" .null)
          else none
        | _ => none) with
    | some s => s
    | none => .str ""

/-- The amended symbol-resolution rule: as the spec, but the primary clause
also requires the selected candidate to have a non-empty (truthy) symbol. -/
def pick_symbol_amendedModel (search_results : List JVal) (keywords : List String) : JVal :=
  let kw := keywords.map pyLower
  match search_results.findSome? (fun it =>
      match it with
      | .obj r =>
        if rowMatches kw r && pyTruthy (jlookupD r "Symbol" .null) then
          some (jlookupD r "Symbol" .null)
        else none
      | _ => none) with
  | some s => s
  | none =>
    match search_results.findSome? (fun it =>
        match it with
        | .obj r =>
          if pyTruthy (jlookupD r "Symbol" .null) then some (jlookupD r "Symbol" .null)
          else none
        | _ => none) with
    | some s => s
    | none => .str ""

/-- Result of parsing the bytes of a present file as JSON. -/
inductive ParseOutcome where
  | ok (j : JVal)
  | malformed

/-- State of a file on disk as seen by `load_json`: absent (open raises
`FileNotFoundError`), unreadable (open raises some other `OSError`), or
present with either well-formed or malformed JSON content. -/
inductive FileState where
  | absent
  | unreadable
  | present (p : ParseOutcome)

/-- `load_json(path, default)` from the script.  The `try` catches only
`FileNotFoundError`: an absent file yields the default, while an unreadable
file or malformed JSON raises out of the function. -/
def load_json : FileState → JVal → Except Unit JVal
  | .absent, d => .ok d
  | .unreadable, _ => .error ()
  | .present (.ok j), _ => .ok j
  | .present .malformed, _ => .error ()

/-- Python `x.get(k, default)`: raises `AttributeError` when `x` is not a
dict. -/
def pyDictGet : JVal → String → JVal → Except Unit JVal
  | .obj kvs, k, d => .ok (jlookupD kvs k d)
  | _, _, _ => .error ()

/-- Python iteration over a JSON value: lists yield their elements, dicts
their keys, strings their characters; other values raise `TypeError`. -/
def pyIter : JVal → Except Unit (List JVal)
  | .arr l => .ok l
  | .obj kvs => .ok (kvs.map fun p => JVal.str p.1)
  | .str s => .ok (s.data.map fun c => JVal.str (String.singleton c))
  | _ => .error ()

/-- The four lane values extracted from the Freightos page by
`parse_freightos_fbx` (each lane independently optional). -/
structure FbxValues where
  fbx01 : Option Rat
  fbx03 : Option Rat
  fbx11 : Option Rat
  fbx13 : Option Rat

/-- One run environment of `main`: the prior snapshot file, the outcome of
each fetch pipeline that `main` wraps in a `try` block (`Except.error`
means some exception was raised inside that block before its `upsert`
calls), the manual-override file, and the timestamp of the run.  The fetch
pipelines are network-bound and external to this model; the value an
`Except.ok` carries is the candidate value the pipeline hands to
`upsert`. -/
structure World where
  priorFile : FileState
  usdtryPipeline : Except Unit (Option Rat)
  bdiPipeline : Except Unit (Option Rat)
  fbxPipeline : Except Unit FbxValues
  manualFile : FileState
  now : String

/-- The TradingEconomics source URL string passed by the usdtry and bdi
upserts. -/
def teSourceUrl : JVal := .str "https://tradingeconomics.com/"

/-- The Freightos page URL (`FREIGHTOS_PAGE`). -/
def FREIGHTOS_PAGE : String :=
  "https://www.freightos.com/freight-resources/container-shipping-cost-calculator-free-tool/"

/-- The usdtry section of `main`: on success the fetched value (possibly
`None`) is upserted, on any exception the `except` branch upserts `None`
with the same metadata. -/
def runUsdtry (now : String) (d : Items) (r : Except Unit (Option Rat)) : Items :=
  match r with
  | .ok v => upsert now d "usdtry" (.str "USD/TRY FX") (.str "TRY per USD") (.str "fx") v teSourceUrl
  | .error _ => upsert now d "usdtry" (.str "USD/TRY FX") (.str "TRY per USD") (.str "fx") none teSourceUrl

/-- The bdi section of `main`, analogous to the usdtry section. -/
def runBdi (now : String) (d : Items) (r : Except Unit (Option Rat)) : Items :=
  match r with
  | .ok v => upsert now d "bdi" (.str "Baltic Dry Index (BDI)") (.str "Index points") (.str "number") v teSourceUrl
  | .error _ => upsert now d "bdi" (.str "Baltic Dry Index (BDI)") (.str "Index points") (.str "number") none teSourceUrl

/-- The four FBX lane upserts shared by the `try` and `except` branches of
the fbx section. -/
def fbxUpserts (now : String) (d : Items) (v : FbxValues) : Items :=
  let d1 := upsert now d "fbx01" (.str "Freightos FBX01 (Asia → US West)") (.str "USD / FEU") (.str "usd") v.fbx01 (.str FREIGHTOS_PAGE)
  let d2 := upsert now d1 "fbx03" (.str "Freightos FBX03 (Asia → US East)") (.str "USD / FEU") (.str "usd") v.fbx03 (.str FREIGHTOS_PAGE)
  let d3 := upsert now d2 "fbx11" (.str "Freightos FBX11 (Asia → N. Europe)") (.str "USD / FEU") (.str "usd") v.fbx11 (.str FREIGHTOS_PAGE)
  upsert now d3 "fbx13" (.str "Freightos FBX13 (Asia → Med)") (.str "USD / FEU") (.str "usd") v.fbx13 (.str FREIGHTOS_PAGE)

/-- The fbx section of `main`: one `try` block around the page fetch, the
parse and all four lane upserts; the `except` branch upserts all four
lanes with `None`. -/
def runFbx (now : String) (d : Items) (r : Except Unit FbxValues) : Items :=
  match r with
  | .ok v => fbxUpserts now d v
  | .error _ => fbxUpserts now d ⟨none, none, none, none⟩

/-- The wci section of `main`.  It is NOT wrapped in a `try` block: the
manual-override document is loaded with `load_json` (which re-raises
everything but `FileNotFoundError`), then `manual.get`, `wci.get` raise
`AttributeError` when the loaded value or its "drewry_wci" field is not a
dict.  `isinstance(wci_val, (int, float))` is true for Python bools as
well (`bool` subclasses `int`), so a bool override value is converted with
`float(...)`. -/
def runWci (now : String) (d : Items) (manualFs : FileState) : Except Unit Items := do
  let manual ← load_json manualFs (.obj [])
  let wci ← pyDictGet manual "drewry_wci" (.obj [])
  let wciVal ← pyDictGet wci "value" .null
  let nameV ← pyDictGet wci "name" (.str "Drewry WCI (manual)")
  let unitV ← pyDictGet wci "unit" (.str "USD / 40ft")
  let srcV ← pyDictGet wci "source_url" (.str "")
  let value : Option Rat :=
    match wciVal with
    | .num q => some q
    | .bool b => some (if b then 1 else 0)
    | _ => none
  pure (upsert now d "wci" nameV unitV (.str "usd") value srcV)

/-- The default prior snapshot used by `main` when the output file is
absent. -/
def defaultPrior : JVal := .obj [("generated_at", .null), ("items", .arr [])]

/-- The merge phase of `main`: load the prior snapshot, build the key
mapping, run the four indicator sections in order, and return the final
mapping.  An uncaught exception anywhere (prior snapshot unreadable or
malformed, non-dict prior document, non-iterable items field, unhashable
prior key, wci section failure) aborts the run. -/
def mainItems (w : World) : Except Unit Items := do
  let existing ← load_json w.priorFile defaultPrior
  let itemsJ ← pyDictGet existing "items" (.arr [])
  let itemsL ← pyIter itemsJ
  let d0 ← mkItemsByKey itemsL
  let d1 := runUsdtry w.now d0 w.usdtryPipeline
  let d2 := runBdi w.now d1 w.bdiPipeline
  let d3 := runFbx w.now d2 w.fbxPipeline
  runWci w.now d3 w.manualFile

/-- The output snapshot document handed to `save_json`. -/
structure Snapshot where
  generated_at : String
  items : List JVal

/-- `main` up to the final write: the output document with
`generated_at = now_iso()` and `items = list(items_by_key.values())`. -/
def mainRun (w : World) : Except Unit Snapshot := do
  let d ← mainItems w
  pure ⟨w.now, d.map fun p => JVal.obj p.2⟩

/-- Fault model for the final write: the write succeeds, raises at
`open`, or raises after `k` characters of the serialized document were
written. -/
inductive WriteFault where
  | success
  | atOpen
  | midway (k : Nat)

/-- `save_json(path, obj)` from the script, as a transition on the stored
file content.  The script writes in place: `open(path, "w")` truncates the
existing file at open, then `json.dump` plus the trailing newline write the
serialized document sequentially.  A failure at open leaves the prior
content; a failure after open leaves whatever prefix was written.  Returns
the outcome surfaced to the caller and the resulting file content. -/
def save_json (content : String) (prior : Option String) :
    WriteFault → Except Unit Unit × Option String
  | .success => (.ok (), some content)
  | .atOpen => (.error (), prior)
  | .midway k => (.error (), some (content.take k))

/-- Prior-snapshot file states under which the load-and-build prefix of
`main` raises no exception (used to state the amended isolation claim). -/
def priorFileSafe : FileState → Bool
  | .absent => true
  | .unreadable => false
  | .present .malformed => false
  | .present (.ok j) =>
    match j with
    | .obj kvs =>
      match jlookupD kvs "items" (.arr []) with
      | .arr l => l.all fun it =>
          match it with
          | .obj kvs2 => isHashable (itemKey kvs2)
          | _ => true
      | .obj _ => true
      | .str _ => true
      | _ => false
    | _ => false

/-- Manual-override file states under which the wci section of `main`
raises no exception. -/
def manualFileSafe : FileState → Bool
  | .absent => true
  | .unreadable => false
  | .present .malformed => false
  | .present (.ok m) =>
    match m with
    | .obj kvs =>
      match jlookupD kvs "drewry_wci" (.obj []) with
      | .obj _ => true
      | _ => false
    | _ => false

/-- The underlying entry list of a series value (`[]` for a non-list). -/
def asList : JVal → List JVal
  | .arr l => l
  | _ => []

/-- Entry `b` immediately after entry `a` is a consecutive duplicate in the
sense of the dedup rule of `append_series`: both are objects and the "v"
field of `a` compares Python-equal to the numeric "v" field of `b`. -/
def isConsecDup (a b : JVal) : Bool :=
  match a, b with
  | .obj ka, .obj kb =>
    match jlookup kb "v" with
    | some (.num q) => pyEqNum (jlookup ka "v") q
    | _ => false
  | _, _ => false

/-- No two consecutive entries of the list are duplicates. -/
def consecDupFree : List JVal → Bool
  | [] => true
  | [_] => true
  | a :: b :: rest => !isConsecDup a b && consecDupFree (b :: rest)

/-- The keys of the mapping are pairwise distinct under Python dict-key
equality (each key is unrelated to every later key). -/
def keysFresh : Items → Bool
  | [] => true
  | (k, _) :: rest => (rest.all fun p => !pyKeyEq k p.1) && keysFresh rest

/-- Canonical representative of a dict key under Python equality: bools
collapse onto their numeric value, unhashable values map to `kbad`. -/
inductive KeyRep where
  | knull
  | knum (q : Rat)
  | kstr (s : String)
  | kbad
  deriving DecidableEq

/-- The canonical representative of a JSON value as a dict key. -/
def keyRep : JVal → KeyRep
  | .null => .knull
  | .bool b => .knum (if b then 1 else 0)
  | .num q => .knum q
  | .str s => .kstr s
  | .arr _ => .kbad
  | .obj _ => .kbad

/-- The last object entry of the prior item list whose "key" field equals
`k` under Python dict-key equality — the entry that wins when building the
key mapping. -/
def lastObjWithKey : List JVal → JVal → Option Item
  | [], _ => none
  | it :: rest, k =>
    match lastObjWithKey rest k with
    | some r => some r
    | none =>
      match it with
      | .obj kvs => if pyKeyEq (itemKey kvs) k then some kvs else none
      | _ => none

/-- The 130-upsert scenario of the bounded-growth property: starting from
an empty series, append the distinct values 0, 1, ..., 129 in turn (the
timestamp of step i is the decimal rendering of i). -/
def scenario130 : JVal :=
  (List.range 130).foldl (fun s i => append_series (toString i) s (some (i : Rat))) (.arr [])

/-- The rational 42.5 (85/2) in normalized form, so that kernel evaluation
can decide equalities on it (the scientific-notation literal does not
kernel-reduce). -/
def fortyTwoPointFive : Rat := Rat.mk' 85 2 (by decide) (by decide)

/-- A prior snapshot mapping holding a "bdi" indicator with a non-empty
series, used to instantiate the failure-preserves-history property. -/
def bdiPriorItem : Item :=
  [("key", JVal.str "bdi"), ("name", JVal.str "Baltic Dry Index (BDI)"),
   ("unit", JVal.str "Index points"), ("format", JVal.str "number"),
   ("source_url", JVal.str "https://tradingeconomics.com/"),
   ("series", JVal.arr [seriesEntry "T0" 100, seriesEntry "T1" 101])]

/-- The items-by-key mapping containing just the prior "bdi" item. -/
def bdiPriorItems : Items := [(JVal.str "bdi", bdiPriorItem)]

/-- Search results whose first keyword-matching candidate has an empty
symbol while a later matching candidate has a non-empty one. -/
def ambiguousRows : List JVal :=
  [JVal.obj [("Name", JVal.str "USDTRY alpha"), ("Symbol", JVal.str "")],
   JVal.obj [("Name", JVal.str "USDTRY beta"), ("Symbol", JVal.str "USDTRY:CUR")]]

/-- A run environment whose only anomaly is a present but undecodable
manual-override document; every fetch pipeline succeeds. -/
def malformedManualWorld : World :=
  ⟨FileState.absent, .ok (some 34), .ok (some 2000),
   .ok ⟨some 2127, some 3000, some 1500, some 2500⟩,
   FileState.present ParseOutcome.malformed, "T"⟩

/-- A run environment with no manual-override document on disk. -/
def absentManualWorld : World :=
  ⟨FileState.absent, .ok (some 34), .ok (some 2000),
   .ok ⟨some 2127, some 3000, some 1500, some 2500⟩,
   FileState.absent, "T"⟩

/-- A run environment whose manual-override document decodes fine but whose
"drewry_wci" entry is a number instead of an object, so the wci section
raises `AttributeError` on `wci.get("value", None)`. -/
def wciCrashWorld : World :=
  ⟨FileState.absent, .ok (some 34), .ok (some 2000),
   .ok ⟨some 2127, none, some 1500, none⟩,
   FileState.present (ParseOutcome.ok (JVal.obj [("drewry_wci", JVal.num 5)])), "T"⟩

/-- A run environment in which every fetch pipeline raises. -/
def allFetchFailWorld : World :=
  ⟨FileState.absent, .error (), .error (), .error (), FileState.absent, "T"⟩

/-- A malformed prior item list: a non-object entry followed by two object
entries sharing the key "bdi". -/
def messyPriorItems : List JVal :=
  [JVal.str "junk",
   JVal.obj [("key", JVal.str "bdi"), ("series", JVal.arr [])],
   JVal.obj [("key", JVal.str "bdi"), ("name", JVal.str "later wins")]]

example : append_series "T" (JVal.arr []) (some 5) =
    JVal.arr [seriesEntry "T" 5] := by rfl

example : append_series "T2" (JVal.arr [seriesEntry "T" 5]) (some 5) =
    JVal.arr [seriesEntry "T" 5] := by rfl

example : append_series "T" (JVal.str "bad") (some 5) =
    JVal.arr [seriesEntry "T" 5] := by rfl

example : append_series "T" (JVal.str "bad") none = JVal.str "bad" := by rfl

/-! ### Helper lemmas: string-keyed dicts -/

theorem jlookup_objSet_self (o : Item) (k : String) (v : JVal) :
    jlookup (objSet o k v) k = some v := by
  induction o with
  | nil => simp [objSet, jlookup]
  | cons p rest ih =>
    obtain ⟨k0, v0⟩ := p
    by_cases h : k0 = k
    · simp [objSet, h, jlookup]
    · simp [objSet, h, jlookup, ih]

theorem jlookup_objSet_ne (o : Item) (k k2 : String) (v : JVal) (h : k ≠ k2) :
    jlookup (objSet o k v) k2 = jlookup o k2 := by
  induction o with
  | nil => simp [objSet, jlookup, h]
  | cons p rest ih =>
    obtain ⟨k0, v0⟩ := p
    by_cases h0 : k0 = k
    · subst h0
      simp [objSet, jlookup, h]
    · simp [objSet, h0, jlookup, ih]

/-! ### Helper lemmas: Python dict-key equality -/

theorem pyKeyEq_eq_keyRep (a b : JVal) :
    pyKeyEq a b =
      (decide (keyRep a = keyRep b) && decide (keyRep a ≠ KeyRep.kbad)) := by
  cases a <;> cases b <;> simp [pyKeyEq, keyRep] <;>
    first
      | rfl
      | (rename_i x y; cases x <;> cases y <;> simp)

theorem pyKeyEq_symm (a b : JVal) : pyKeyEq a b = pyKeyEq b a := by
  rw [pyKeyEq_eq_keyRep, pyKeyEq_eq_keyRep]
  by_cases h : keyRep a = keyRep b
  · rw [h]
  · have h2 : keyRep b ≠ keyRep a := fun e => h e.symm
    simp [h, h2]

theorem pyKeyEq_trans {a b c : JVal} (h1 : pyKeyEq a b = true)
    (h2 : pyKeyEq b c = true) : pyKeyEq a c = true := by
  rw [pyKeyEq_eq_keyRep] at h1 h2 ⊢
  simp only [Bool.and_eq_true, decide_eq_true_eq] at h1 h2 ⊢
  exact ⟨h1.1.trans h2.1, h1.2⟩

/-! ### Helper lemmas: the items-by-key dict -/

theorem dlookup_dinsert (d : Items) (k : JVal) (v : Item) (k2 : JVal) :
    dlookup (dinsert d k v) k2 = if pyKeyEq k k2 then some v else dlookup d k2 := by
  induction d with
  | nil => simp [dinsert, dlookup]
  | cons p rest ih =>
    obtain ⟨k0, v0⟩ := p
    by_cases h0 : pyKeyEq k0 k
    · by_cases h02 : pyKeyEq k0 k2
      · have hk2 : pyKeyEq k k2 = true := pyKeyEq_trans (pyKeyEq_symm k0 k ▸ h0) h02
        simp [dinsert, h0, dlookup, h02, hk2]
      · have hk2 : ¬ pyKeyEq k k2 = true := fun h => h02 (pyKeyEq_trans h0 h)
        simp [dinsert, h0, dlookup, h02, hk2]
    · by_cases h02 : pyKeyEq k0 k2
      · have hk2 : ¬ pyKeyEq k k2 = true := fun h =>
          h0 (pyKeyEq_trans h02 (pyKeyEq_symm k k2 ▸ h))
        simp [dinsert, h0, dlookup, h02, hk2]
      · simp [dinsert, h0, dlookup, h02, ih]

theorem all_keys_dinsert (d : Items) (k : JVal) (v : Item) (P : JVal → Bool)
    (hd : d.all (fun p => P p.1) = true) (hk : P k = true) :
    (dinsert d k v).all (fun p => P p.1) = true := by
  induction d with
  | nil => simp [dinsert, hk]
  | cons p rest ih =>
    obtain ⟨k0, v0⟩ := p
    simp only [List.all_cons, Bool.and_eq_true] at hd
    by_cases h0 : pyKeyEq k0 k
    · simp [dinsert, h0, hd.1, hd.2]
    · simp [dinsert, h0, hd.1, ih hd.2]

theorem keysFresh_dinsert (d : Items) (k : JVal) (v : Item)
    (h : keysFresh d = true) : keysFresh (dinsert d k v) = true := by
  induction d with
  | nil => simp [dinsert, keysFresh]
  | cons p rest ih =>
    obtain ⟨k0, v0⟩ := p
    simp only [keysFresh, Bool.and_eq_true] at h
    by_cases h0 : pyKeyEq k0 k
    · have hstep : dinsert ((k0, v0) :: rest) k v = (k0, v) :: rest := by
        simp [dinsert, h0]
      rw [hstep]
      simp only [keysFresh, Bool.and_eq_true]
      exact ⟨h.1, h.2⟩
    · have hstep : dinsert ((k0, v0) :: rest) k v = (k0, v0) :: dinsert rest k v := by
        simp [dinsert, h0]
      rw [hstep]
      simp only [keysFresh, Bool.and_eq_true]
      exact ⟨all_keys_dinsert rest k v (fun x => !pyKeyEq k0 x) h.1 (by simp [h0]), ih h.2⟩

theorem keysFresh_mkItemsByKeyAux (items : List JVal) :
    ∀ d d' : Items, keysFresh d = true → mkItemsByKeyAux d items = .ok d' →
      keysFresh d' = true := by
  induction items with
  | nil =>
    intro d d' hd h
    simp only [mkItemsByKeyAux, Except.ok.injEq] at h
    exact h ▸ hd
  | cons it rest ih =>
    intro d d' hd h
    cases it with
    | obj kvs =>
      by_cases hh : isHashable (itemKey kvs)
      · simp only [mkItemsByKeyAux, hh, if_true] at h
        exact ih _ _ (keysFresh_dinsert d (itemKey kvs) kvs hd) h
      · simp [mkItemsByKeyAux, hh] at h
    | null => exact ih _ _ hd h
    | bool b => exact ih _ _ hd h
    | num q => exact ih _ _ hd h
    | str s => exact ih _ _ hd h
    | arr xs => exact ih _ _ hd h

theorem mkItemsByKeyAux_filter_isObj (items : List JVal) :
    ∀ d : Items, mkItemsByKeyAux d (items.filter isObj) = mkItemsByKeyAux d items := by
  induction items with
  | nil => intro d; rfl
  | cons it rest ih =>
    intro d
    cases it <;> simp [List.filter, isObj, mkItemsByKeyAux, ih]

theorem dlookup_mkItemsByKeyAux (items : List JVal) :
    ∀ (d d' : Items) (k : JVal), mkItemsByKeyAux d items = .ok d' →
      dlookup d' k =
        (match lastObjWithKey items k with
         | some r => some r
         | none => dlookup d k) := by
  induction items with
  | nil =>
    intro d d' k h
    simp only [mkItemsByKeyAux, Except.ok.injEq] at h
    simp [lastObjWithKey, h]
  | cons it rest ih =>
    intro d d' k h
    cases it with
    | obj kvs =>
      by_cases hh : isHashable (itemKey kvs)
      · simp only [mkItemsByKeyAux, hh, if_true] at h
        rw [ih _ _ k h]
        simp only [lastObjWithKey]
        cases lastObjWithKey rest k with
        | some r => rfl
        | none =>
          rw [dlookup_dinsert]
          by_cases hk : pyKeyEq (itemKey kvs) k <;> simp [hk]
      · simp [mkItemsByKeyAux, hh] at h
    | null =>
      rw [ih _ _ k h]
      simp only [lastObjWithKey]
      cases lastObjWithKey rest k <;> rfl
    | bool b =>
      rw [ih _ _ k h]
      simp only [lastObjWithKey]
      cases lastObjWithKey rest k <;> rfl
    | num q =>
      rw [ih _ _ k h]
      simp only [lastObjWithKey]
      cases lastObjWithKey rest k <;> rfl
    | str s =>
      rw [ih _ _ k h]
      simp only [lastObjWithKey]
      cases lastObjWithKey rest k <;> rfl
    | arr xs =>
      rw [ih _ _ k h]
      simp only [lastObjWithKey]
      cases lastObjWithKey rest k <;> rfl

/-! ### Helper lemmas: series truncation -/

theorem length_takeLast (n : Nat) (xs : List JVal) :
    (takeLast n xs).length = min xs.length n := by
  simp only [takeLast, List.length_drop]
  omega

theorem getLast?_drop_of_lt {α : Type} (xs : List α) (n : Nat) (h : n < xs.length) :
    (xs.drop n).getLast? = xs.getLast? := by
  conv_rhs => rw [← List.take_append_drop n xs]
  rw [List.getLast?_append_of_ne_nil]
  apply List.ne_nil_of_length_pos
  simp
  omega

theorem getLast?_takeLast (n : Nat) (xs : List JVal) (hn : 0 < n) (hx : xs ≠ []) :
    (takeLast n xs).getLast? = xs.getLast? := by
  apply getLast?_drop_of_lt
  have := List.length_pos.mpr hx
  omega

theorem lastIsDup_takeLast_concat (xs : List JVal) (t : String) (v : Rat) :
    lastIsDup (takeLast 120 (xs ++ [seriesEntry t v])) v = true := by
  have h1 : (takeLast 120 (xs ++ [seriesEntry t v])).getLast? = some (seriesEntry t v) := by
    rw [getLast?_takeLast 120 _ (by omega) (by simp)]
    simp
  unfold lastIsDup
  rw [h1]
  simp [seriesEntry, jlookup, pyEqNum]

/-! ### Helper lemmas: consecutive duplicates -/

theorem consecDupFree_tail (a : JVal) (l : List JVal)
    (h : consecDupFree (a :: l) = true) : consecDupFree l = true := by
  cases l with
  | nil => rfl
  | cons b rest =>
    simp only [consecDupFree, Bool.and_eq_true] at h
    exact h.2

theorem consecDupFree_drop (l : List JVal) :
    ∀ n, consecDupFree l = true → consecDupFree (l.drop n) = true := by
  induction l with
  | nil =>
    intro n h
    simp [List.drop_nil]
    rfl
  | cons a rest ih =>
    intro n h
    cases n with
    | zero => exact h
    | succ m => exact ih m (consecDupFree_tail a rest h)

theorem consecDupFree_concat (l : List JVal) (b : JVal)
    (hl : consecDupFree l = true)
    (hlast : ∀ x, l.getLast? = some x → isConsecDup x b = false) :
    consecDupFree (l ++ [b]) = true := by
  induction l with
  | nil => rfl
  | cons a rest ih =>
    cases rest with
    | nil =>
      have hab := hlast a rfl
      simp [consecDupFree, hab]
    | cons c rest2 =>
      simp only [consecDupFree, Bool.and_eq_true] at hl
      have htail := ih hl.2 (fun x hx => hlast x (by
        rw [List.getLast?_cons_cons]
        exact hx))
      simp only [List.cons_append, consecDupFree, Bool.and_eq_true]
      constructor
      · simp [hl.1]
      · simpa using htail

theorem isConsecDup_of_not_lastIsDup (xs : List JVal) (v : Rat) (t : String)
    (h : lastIsDup xs v = false) :
    ∀ x, xs.getLast? = some x → isConsecDup x (seriesEntry t v) = false := by
  intro x hx
  unfold lastIsDup at h
  rw [hx] at h
  cases x with
  | obj kxs =>
    simpa [isConsecDup, seriesEntry, jlookup] using h
  | null => rfl
  | bool b => rfl
  | num q => rfl
  | str s => rfl
  | arr l => rfl

theorem consecDupFree_append_series (now : String) (e : JVal) (v : Rat)
    (h : consecDupFree (asList e) = true) :
    consecDupFree (asList (append_series now e (some v))) = true := by
  cases e with
  | arr xs =>
    by_cases hd : lastIsDup xs v
    · simpa [append_series, hd, asList] using h
    · have hfree := consecDupFree_concat xs (seriesEntry now v) (by simpa [asList] using h)
        (isConsecDup_of_not_lastIsDup xs v now (by simpa using hd))
      simp only [append_series, hd, Bool.false_eq_true, if_false, asList, takeLast]
      exact consecDupFree_drop _ _ hfree
  | null => rfl
  | bool b => rfl
  | num q => rfl
  | str s => rfl
  | obj kvs => rfl

theorem lastIsDup_singleton_entry (t : String) (v : Rat) :
    lastIsDup [seriesEntry t v] v = true := by
  simp [lastIsDup, seriesEntry, jlookup, pyEqNum]

theorem append_series_idem (t1 t2 : String) (e : JVal) (v : Rat) :
    append_series t2 (append_series t1 e (some v)) (some v) =
      append_series t1 e (some v) := by
  have hsingle : append_series t2 (JVal.arr [seriesEntry t1 v]) (some v) =
      JVal.arr [seriesEntry t1 v] := by
    simp [append_series, lastIsDup_singleton_entry]
  cases e with
  | arr xs =>
    by_cases hd : lastIsDup xs v
    · simp [append_series, hd]
    · simp [append_series, hd, lastIsDup_takeLast_concat xs t1 v]
  | null => exact hsingle
  | bool b => exact hsingle
  | num q => exact hsingle
  | str s => exact hsingle
  | obj kvs => exact hsingle

/-! ### Helper lemmas: upsert -/

theorem pyKeyEq_str_self (s : String) : pyKeyEq (.str s) (.str s) = true := by
  simp [pyKeyEq]

theorem upsert_fields (now : String) (d : Items) (key : String)
    (name unit fmt : JVal) (value : Option Rat) (su : JVal) :
    ∃ kvs : Item,
      dlookup (upsert now d key name unit fmt value su) (JVal.str key) = some kvs ∧
      jlookup kvs "name" = some name ∧
      jlookup kvs "unit" = some unit ∧
      jlookup kvs "format" = some fmt ∧
      jlookup kvs "source_url" =
        (if pyTruthy su then some su
         else jlookup ((dlookup d (JVal.str key)).getD (freshItem key name unit fmt su))
                "source_url") ∧
      jlookup kvs "series" =
        some (append_series now
          (jlookupD ((dlookup d (JVal.str key)).getD (freshItem key name unit fmt su))
            "series" (.arr []))
          value) := by
  unfold upsert
  rw [dlookup_dinsert, if_pos (pyKeyEq_str_self key)]
  set it0 : Item := (dlookup d (JVal.str key)).getD (freshItem key name unit fmt su) with hit0
  refine ⟨_, rfl, ?_, ?_, ?_, ?_, ?_⟩
  · by_cases hsu : pyTruthy su <;>
      simp [hsu, jlookup_objSet_ne, jlookup_objSet_self]
  · by_cases hsu : pyTruthy su <;>
      simp [hsu, jlookup_objSet_ne, jlookup_objSet_self]
  · by_cases hsu : pyTruthy su <;>
      simp [hsu, jlookup_objSet_ne, jlookup_objSet_self]
  · by_cases hsu : pyTruthy su <;>
      simp [hsu, jlookup_objSet_ne, jlookup_objSet_self]
  · by_cases hsu : pyTruthy su <;>
      simp [hsu, jlookupD, jlookup_objSet_ne, jlookup_objSet_self]

theorem keysFresh_upsert (now : String) (d : Items) (key : String)
    (name unit fmt : JVal) (value : Option Rat) (su : JVal)
    (h : keysFresh d = true) :
    keysFresh (upsert now d key name unit fmt value su) = true := by
  unfold upsert
  exact keysFresh_dinsert d _ _ h

/-! ### Helper lemmas: the run driver -/

theorem mkItemsByKeyAux_ok (items : List JVal)
    (hall : (items.all fun it =>
      match it with
      | .obj kvs => isHashable (itemKey kvs)
      | _ => true) = true) :
    ∀ d : Items, ∃ d' : Items, mkItemsByKeyAux d items = .ok d' := by
  induction items with
  | nil => intro d; exact ⟨d, rfl⟩
  | cons it rest ih =>
    simp only [List.all_cons, Bool.and_eq_true] at hall
    intro d
    cases it with
    | obj kvs =>
      have hh : isHashable (itemKey kvs) = true := hall.1
      obtain ⟨d', hd'⟩ := ih hall.2 (dinsert d (itemKey kvs) kvs)
      exact ⟨d', by simp [mkItemsByKeyAux, hh, hd']⟩
    | null => exact ih hall.2 d
    | bool b => exact ih hall.2 d
    | num q => exact ih hall.2 d
    | str s => exact ih hall.2 d
    | arr xs => exact ih hall.2 d

theorem runWci_shape (now : String) (d : Items) (fs : FileState) (d' : Items)
    (h : runWci now d fs = .ok d') :
    ∃ (nameV unitV srcV : JVal) (value : Option Rat),
      d' = upsert now d "wci" nameV unitV (.str "usd") value srcV := by
  cases fs with
  | absent =>
    simp only [runWci, load_json, pyDictGet, jlookupD, jlookup, Option.getD,
      Except.bind, bind, pure, Except.pure, Except.ok.injEq] at h
    exact ⟨_, _, _, _, h.symm⟩
  | unreadable => simp [runWci, load_json, Except.bind, bind] at h
  | present p =>
    cases p with
    | malformed => simp [runWci, load_json, Except.bind, bind] at h
    | ok m =>
      cases m with
      | obj kvs =>
        cases hw : jlookupD kvs "drewry_wci" (.obj []) with
        | obj wkvs =>
          simp only [runWci, load_json, pyDictGet, hw, Except.bind, bind, pure,
            Except.pure, Except.ok.injEq] at h
          exact ⟨_, _, _, _, h.symm⟩
        | null => simp [runWci, load_json, pyDictGet, hw, Except.bind, bind] at h
        | bool b => simp [runWci, load_json, pyDictGet, hw, Except.bind, bind] at h
        | num q => simp [runWci, load_json, pyDictGet, hw, Except.bind, bind] at h
        | str s => simp [runWci, load_json, pyDictGet, hw, Except.bind, bind] at h
        | arr xs => simp [runWci, load_json, pyDictGet, hw, Except.bind, bind] at h
      | null => simp [runWci, load_json, pyDictGet, Except.bind, bind] at h
      | bool b => simp [runWci, load_json, pyDictGet, Except.bind, bind] at h
      | num q => simp [runWci, load_json, pyDictGet, Except.bind, bind] at h
      | str s => simp [runWci, load_json, pyDictGet, Except.bind, bind] at h
      | arr xs => simp [runWci, load_json, pyDictGet, Except.bind, bind] at h

theorem runWci_ok_of_safe (now : String) (d : Items) (fs : FileState)
    (h : manualFileSafe fs = true) :
    ∃ d' : Items, runWci now d fs = .ok d' := by
  cases fs with
  | absent => exact ⟨_, rfl⟩
  | unreadable => simp [manualFileSafe] at h
  | present p =>
    cases p with
    | malformed => simp [manualFileSafe] at h
    | ok m =>
      cases m with
      | obj kvs =>
        cases hw : jlookupD kvs "drewry_wci" (.obj []) with
        | obj wkvs =>
          cases hr : runWci now d (FileState.present (ParseOutcome.ok (JVal.obj kvs))) with
          | ok d2 => exact ⟨d2, rfl⟩
          | error e =>
            simp [runWci, load_json, pyDictGet, hw, Except.bind, bind, pure,
              Except.pure] at hr
        | null => simp [manualFileSafe, hw] at h
        | bool b => simp [manualFileSafe, hw] at h
        | num q => simp [manualFileSafe, hw] at h
        | str s => simp [manualFileSafe, hw] at h
        | arr xs => simp [manualFileSafe, hw] at h
      | null => simp [manualFileSafe] at h
      | bool b => simp [manualFileSafe] at h
      | num q => simp [manualFileSafe] at h
      | str s => simp [manualFileSafe] at h
      | arr xs => simp [manualFileSafe] at h

theorem keysFresh_runUsdtry (now : String) (d : Items) (r : Except Unit (Option Rat))
    (h : keysFresh d = true) : keysFresh (runUsdtry now d r) = true := by
  cases r with
  | ok v => exact keysFresh_upsert _ _ _ _ _ _ _ _ h
  | error e => exact keysFresh_upsert _ _ _ _ _ _ _ _ h

theorem keysFresh_runBdi (now : String) (d : Items) (r : Except Unit (Option Rat))
    (h : keysFresh d = true) : keysFresh (runBdi now d r) = true := by
  cases r with
  | ok v => exact keysFresh_upsert _ _ _ _ _ _ _ _ h
  | error e => exact keysFresh_upsert _ _ _ _ _ _ _ _ h

theorem keysFresh_runFbx (now : String) (d : Items) (r : Except Unit FbxValues)
    (h : keysFresh d = true) : keysFresh (runFbx now d r) = true := by
  cases r with
  | ok v =>
    exact keysFresh_upsert _ _ _ _ _ _ _ _
      (keysFresh_upsert _ _ _ _ _ _ _ _
        (keysFresh_upsert _ _ _ _ _ _ _ _
          (keysFresh_upsert _ _ _ _ _ _ _ _ h)))
  | error e =>
    exact keysFresh_upsert _ _ _ _ _ _ _ _
      (keysFresh_upsert _ _ _ _ _ _ _ _
        (keysFresh_upsert _ _ _ _ _ _ _ _
          (keysFresh_upsert _ _ _ _ _ _ _ _ h)))

theorem keysFresh_runWci (now : String) (d : Items) (fs : FileState) (d' : Items)
    (hr : runWci now d fs = .ok d') (h : keysFresh d = true) :
    keysFresh d' = true := by
  obtain ⟨nameV, unitV, srcV, value, hshape⟩ := runWci_shape now d fs d' hr
  rw [hshape]
  exact keysFresh_upsert _ _ _ _ _ _ _ _ h

theorem keysFresh_mainItems (w : World) (d : Items)
    (h : mainItems w = .ok d) : keysFresh d = true := by
  unfold mainItems at h
  cases h1 : load_json w.priorFile defaultPrior with
  | error e => rw [h1] at h; simp [Except.bind, bind] at h
  | ok existing =>
    rw [h1] at h
    simp only [Except.bind, bind] at h
    cases h2 : pyDictGet existing "items" (.arr []) with
    | error e => rw [h2] at h; simp at h
    | ok itemsJ =>
      rw [h2] at h
      simp only [] at h
      cases h3 : pyIter itemsJ with
      | error e => rw [h3] at h; simp at h
      | ok itemsL =>
        rw [h3] at h
        simp only [] at h
        cases h4 : mkItemsByKey itemsL with
        | error e => rw [h4] at h; simp at h
        | ok d0 =>
          rw [h4] at h
          simp only [] at h
          have hk0 : keysFresh d0 = true :=
            keysFresh_mkItemsByKeyAux itemsL [] d0 rfl h4
          exact keysFresh_runWci _ _ _ _ h
            (keysFresh_runFbx _ _ _ (keysFresh_runBdi _ _ _
              (keysFresh_runUsdtry _ _ _ hk0)))

theorem mainItems_ok_of_safe (w : World)
    (hp : priorFileSafe w.priorFile = true)
    (hm : manualFileSafe w.manualFile = true) :
    ∃ d : Items, mainItems w = .ok d := by
  obtain ⟨priorFile, usdtryR, bdiR, fbxR, manualFile, now⟩ := w
  simp only at hp hm ⊢
  cases priorFile with
  | absent =>
    obtain ⟨d', hd'⟩ := runWci_ok_of_safe now
      (runFbx now (runBdi now (runUsdtry now [] usdtryR) bdiR) fbxR) manualFile hm
    refine ⟨d', ?_⟩
    simp [mainItems, load_json, defaultPrior, pyDictGet, pyIter, mkItemsByKey,
      mkItemsByKeyAux, Except.bind, bind, pure, Except.pure, jlookupD, jlookup,
      Option.getD, hd']
  | unreadable => simp [priorFileSafe] at hp
  | present p =>
    cases p with
    | malformed => simp [priorFileSafe] at hp
    | ok j =>
      cases j with
      | obj kvs =>
        simp only [priorFileSafe] at hp
        cases hit : jlookupD kvs "items" (.arr []) with
        | arr l =>
          rw [hit] at hp
          obtain ⟨d0, hd0⟩ := mkItemsByKeyAux_ok l hp []
          obtain ⟨d', hd'⟩ := runWci_ok_of_safe now
            (runFbx now (runBdi now (runUsdtry now d0 usdtryR) bdiR) fbxR) manualFile hm
          refine ⟨d', ?_⟩
          simp [mainItems, load_json, pyDictGet, hit, pyIter, mkItemsByKey, hd0,
            Except.bind, bind, pure, Except.pure, hd']
        | obj kvs2 =>
          have hall : ((kvs2.map fun pr => JVal.str pr.1).all fun it =>
              match it with
              | JVal.obj k2 => isHashable (itemKey k2)
              | _ => true) = true := by
            rw [List.all_eq_true]
            intro x hx
            rw [List.mem_map] at hx
            obtain ⟨pr, _, rfl⟩ := hx
            rfl
          obtain ⟨d0, hd0⟩ := mkItemsByKeyAux_ok _ hall []
          obtain ⟨d', hd'⟩ := runWci_ok_of_safe now
            (runFbx now (runBdi now (runUsdtry now d0 usdtryR) bdiR) fbxR) manualFile hm
          refine ⟨d', ?_⟩
          simp [mainItems, load_json, pyDictGet, hit, pyIter, mkItemsByKey, hd0,
            Except.bind, bind, pure, Except.pure, hd']
        | str s =>
          have hall : ((s.data.map fun c => JVal.str (String.singleton c)).all fun it =>
              match it with
              | JVal.obj k2 => isHashable (itemKey k2)
              | _ => true) = true := by
            rw [List.all_eq_true]
            intro x hx
            rw [List.mem_map] at hx
            obtain ⟨c, _, rfl⟩ := hx
            rfl
          obtain ⟨d0, hd0⟩ := mkItemsByKeyAux_ok _ hall []
          obtain ⟨d', hd'⟩ := runWci_ok_of_safe now
            (runFbx now (runBdi now (runUsdtry now d0 usdtryR) bdiR) fbxR) manualFile hm
          refine ⟨d', ?_⟩
          simp [mainItems, load_json, pyDictGet, hit, pyIter, mkItemsByKey, hd0,
            Except.bind, bind, pure, Except.pure, hd']
        | null => rw [hit] at hp; simp at hp
        | bool b => rw [hit] at hp; simp at hp
        | num q => rw [hit] at hp; simp at hp
      | null => simp [priorFileSafe] at hp
      | bool b => simp [priorFileSafe] at hp
      | num q => simp [priorFileSafe] at hp
      | str s => simp [priorFileSafe] at hp
      | arr xs => simp [priorFileSafe] at hp

/-! ### Helper lemmas: pick_symbol -/

theorem pickLoop1_eq_findSome (kw : List String) (rows : List JVal)
    (h : rows.all isObj = true) :
    pickLoop1 kw rows = .ok (rows.findSome? fun it =>
      match it with
      | .obj r =>
        if rowMatches kw r && pyTruthy (jlookupD r "Symbol" .null) then
          some (jlookupD r "Symbol" .null)
        else none
      | _ => none) := by
  induction rows with
  | nil => rfl
  | cons it rest ih =>
    simp only [List.all_cons, Bool.and_eq_true] at h
    cases it with
    | obj r =>
      by_cases hc : rowMatches kw r = true ∧ pyTruthy (jlookupD r "Symbol" JVal.null) = true
      · simp [pickLoop1, List.findSome?_cons, hc.1, hc.2]
      · have hcb : (rowMatches kw r && pyTruthy (jlookupD r "Symbol" JVal.null)) ≠ true := by
          simpa [Bool.and_eq_true] using hc
        simp [pickLoop1, List.findSome?_cons, hcb, hc, ih h.2]
    | null => simp [isObj] at h
    | bool b => simp [isObj] at h
    | num q => simp [isObj] at h
    | str s => simp [isObj] at h
    | arr xs => simp [isObj] at h

theorem pickLoop2_eq_findSome (rows : List JVal) (h : rows.all isObj = true) :
    pickLoop2 rows = .ok (rows.findSome? fun it =>
      match it with
      | .obj r =>
        if pyTruthy (jlookupD r "Symbol" .null) then some (jlookupD r "Symbol" .null)
        else none
      | _ => none) := by
  induction rows with
  | nil => rfl
  | cons it rest ih =>
    simp only [List.all_cons, Bool.and_eq_true] at h
    cases it with
    | obj r =>
      by_cases hc : pyTruthy (jlookupD r "Symbol" JVal.null) = true
      · simp [pickLoop2, hc, List.findSome?_cons]
      · simp [pickLoop2, hc, List.findSome?_cons, ih h.2]
    | null => simp [isObj] at h
    | bool b => simp [isObj] at h
    | num q => simp [isObj] at h
    | str s => simp [isObj] at h
    | arr xs => simp [isObj] at h

/-! ### Claim theorems -/

/-- C1: upserting with a null value leaves the indicator series exactly
unchanged — `append_series` returns any existing series untouched when the
value is `None`, and through `upsert` an existing indicator whose item
carries a series field keeps that series byte-for-byte; in particular no
null entry is appended. -/
theorem C1_null_value_preserves_series
    (now : String) (d : Items) (key : String) (name unit fmt su : JVal)
    (it0 : Item) (s : JVal)
    (hit : dlookup d (JVal.str key) = some it0)
    (hs : jlookup it0 "series" = some s) :
    (∀ e : JVal, append_series now e none = e) ∧
    ∃ kvs : Item,
      dlookup (upsert now d key name unit fmt none su) (JVal.str key) = some kvs ∧
      jlookup kvs "series" = some s := by
  refine ⟨fun e => rfl, ?_⟩
  obtain ⟨kvs, h1, _, _, _, _, h6⟩ := upsert_fields now d key name unit fmt none su
  refine ⟨kvs, h1, ?_⟩
  rw [h6, hit]
  simp [append_series, jlookupD, hs]

/-- Witness for C1: the concrete "bdi" indicator with a non-empty prior
series keeps it unchanged across an upsert with a null value. -/
theorem C1_witness :
    dlookup bdiPriorItems (JVal.str "bdi") = some bdiPriorItem ∧
    jlookup bdiPriorItem "series" =
      some (JVal.arr [seriesEntry "T0" 100, seriesEntry "T1" 101]) ∧
    ((∀ e : JVal, append_series "T2" e none = e) ∧
     ∃ kvs : Item,
       dlookup (upsert "T2" bdiPriorItems "bdi" (JVal.str "Baltic Dry Index (BDI)")
           (JVal.str "Index points") (JVal.str "number") none
           (JVal.str "https://tradingeconomics.com/")) (JVal.str "bdi") = some kvs ∧
       jlookup kvs "series" =
         some (JVal.arr [seriesEntry "T0" 100, seriesEntry "T1" 101])) :=
  ⟨rfl, rfl,
   C1_null_value_preserves_series "T2" bdiPriorItems "bdi"
     (JVal.str "Baltic Dry Index (BDI)") (JVal.str "Index points")
     (JVal.str "number") (JVal.str "https://tradingeconomics.com/")
     bdiPriorItem (JVal.arr [seriesEntry "T0" 100, seriesEntry "T1" 101]) rfl rfl⟩

/-- C2: the merge keeps a series at no more than 120 entries (a series that
respects the bound still respects it after any merge step), and upserting
130 distinct successive values into an empty series yields exactly the 120
most recent values, in chronological order. -/
theorem C2_series_bounded_and_fifo :
    (∀ (now : String) (xs : List JVal) (v : Option Rat),
      xs.length ≤ 120 →
      (asList (append_series now (JVal.arr xs) v)).length ≤ 120) ∧
    scenario130 =
      JVal.arr (((List.range 130).drop 10).map fun i => seriesEntry (toString i) (i : Rat)) := by
  constructor
  · intro now xs v hlen
    cases v with
    | none => simpa [append_series, asList] using hlen
    | some q =>
      by_cases hd : lastIsDup xs q
      · simpa [append_series, hd, asList] using hlen
      · simp only [append_series, hd, Bool.false_eq_true, if_false, asList]
        rw [length_takeLast]
        omega
  · rfl

/-- Witness for C2: the bound instantiated on a concrete series. -/
theorem C2_witness :
    (asList (append_series "T" (JVal.arr [seriesEntry "T0" 7]) (some 9))).length ≤ 120 :=
  C2_series_bounded_and_fifo.1 "T" [seriesEntry "T0" 7] (some 9) (by decide)

/-- C3: merging a value equal to the last recorded one leaves the series
unchanged; merging the same value twice in a row equals merging it once
(so exactly one entry is appended); and a series with no consecutive
duplicate values keeps that property across any merge step. -/
theorem C3_dedup_idempotent (t1 t2 : String) (e : JVal) (v : Rat) (xs : List JVal) :
    (lastIsDup xs v = true → append_series t1 (JVal.arr xs) (some v) = JVal.arr xs) ∧
    append_series t2 (append_series t1 e (some v)) (some v) =
      append_series t1 e (some v) ∧
    (consecDupFree (asList e) = true →
      consecDupFree (asList (append_series t1 e (some v))) = true) := by
  refine ⟨?_, append_series_idem t1 t2 e v,
    fun h => consecDupFree_append_series t1 e v h⟩
  intro hd
  simp [append_series, hd]

/-- Witness for C3: merging 42.5 on top of a series already ending in 42.5
changes nothing, and the dedup-free invariant holds concretely. -/
theorem C3_witness :
    lastIsDup [seriesEntry "T0" fortyTwoPointFive] fortyTwoPointFive = true ∧
    consecDupFree (asList (JVal.arr [seriesEntry "T0" fortyTwoPointFive])) = true ∧
    append_series "T1" (JVal.arr [seriesEntry "T0" fortyTwoPointFive]) (some fortyTwoPointFive) =
      JVal.arr [seriesEntry "T0" fortyTwoPointFive] ∧
    consecDupFree (asList (append_series "T1" (JVal.arr [seriesEntry "T0" fortyTwoPointFive])
      (some fortyTwoPointFive))) = true :=
  ⟨by decide, by decide,
   (C3_dedup_idempotent "T1" "T2" (JVal.arr [seriesEntry "T0" fortyTwoPointFive]) fortyTwoPointFive
     [seriesEntry "T0" fortyTwoPointFive]).1 (by decide),
   (C3_dedup_idempotent "T1" "T2" (JVal.arr [seriesEntry "T0" fortyTwoPointFive]) fortyTwoPointFive
     [seriesEntry "T0" fortyTwoPointFive]).2.2 (by decide)⟩

/-- C4: every upsert call — including one whose value is null — overwrites
the stored name, unit and format with the arguments of that call, while
source_url is overwritten exactly when the provided one is truthy
(non-empty) and otherwise keeps the prior stored value (a fresh indicator
stores the provided source_url even when empty). -/
theorem C4_metadata_always_refreshes (now : String) (d : Items) (key : String)
    (name unit fmt : JVal) (value : Option Rat) (su : JVal) :
    ∃ kvs : Item,
      dlookup (upsert now d key name unit fmt value su) (JVal.str key) = some kvs ∧
      jlookup kvs "name" = some name ∧
      jlookup kvs "unit" = some unit ∧
      jlookup kvs "format" = some fmt ∧
      (pyTruthy su = true → jlookup kvs "source_url" = some su) ∧
      (pyTruthy su = false →
        (∀ it0 : Item, dlookup d (JVal.str key) = some it0 →
          jlookup kvs "source_url" = jlookup it0 "source_url") ∧
        (dlookup d (JVal.str key) = none → jlookup kvs "source_url" = some su)) := by
  obtain ⟨kvs, h1, h2, h3, h4, h5, _⟩ := upsert_fields now d key name unit fmt value su
  refine ⟨kvs, h1, h2, h3, h4, ?_, ?_⟩
  · intro ht
    rw [h5, if_pos ht]
  · intro hf
    constructor
    · intro it0 hit
      rw [h5, if_neg (by simp [hf]), hit]
      rfl
    · intro hnone
      rw [h5, if_neg (by simp [hf]), hnone]
      simp [freshItem, jlookup]

/-- Witness for C4: a null-valued upsert of a fresh "usdtry" indicator
still stores the metadata passed in the call. -/
theorem C4_witness :
    ∃ kvs : Item,
      dlookup (upsert "T" [] "usdtry" (JVal.str "USD/TRY FX") (JVal.str "TRY per USD")
          (JVal.str "fx") none (JVal.str "https://tradingeconomics.com/"))
        (JVal.str "usdtry") = some kvs ∧
      jlookup kvs "name" = some (JVal.str "USD/TRY FX") ∧
      jlookup kvs "source_url" = some (JVal.str "https://tradingeconomics.com/") := by
  obtain ⟨kvs, h1, h2, _, _, h5, _⟩ := C4_metadata_always_refreshes "T" [] "usdtry"
    (JVal.str "USD/TRY FX") (JVal.str "TRY per USD") (JVal.str "fx") none
    (JVal.str "https://tradingeconomics.com/")
  exact ⟨kvs, h1, h2, h5 (by decide)⟩

/-- C5 counterexample: on search results whose first keyword-matching
candidate has an empty symbol, the spec rule as worded selects that
candidate and yields the empty symbol, while `pick_symbol` skips it and
returns the symbol of the next matching candidate. -/
theorem C5_counterexample :
    pick_symbol ambiguousRows ["usdtry"] = Except.ok (JVal.str "USDTRY:CUR") ∧
    pick_symbol_specModel ambiguousRows ["usdtry"] = JVal.str "" := by
  constructor
  · rfl
  · rfl

/-- C5 amended: symbol resolution returns the symbol of the first candidate
with a truthy (non-empty) symbol whose concatenated name+symbol text
contains all keywords case-insensitively; if none qualifies, the symbol of
the first candidate with a truthy symbol; if no candidate qualifies, the
empty marker.  Stated as equality with the amended spec-level rule, for
candidate lists whose entries are all records (a non-record candidate makes
`pick_symbol` raise instead). -/
theorem C5_pick_symbol_amended (rows : List JVal) (kws : List String)
    (h : rows.all isObj = true) :
    pick_symbol rows kws = .ok (pick_symbol_amendedModel rows kws) := by
  unfold pick_symbol pick_symbol_amendedModel
  simp only [Except.bind, bind]
  rw [pickLoop1_eq_findSome _ _ h]
  cases rows.findSome? fun it =>
      match it with
      | JVal.obj r =>
        if rowMatches (kws.map pyLower) r && pyTruthy (jlookupD r "Symbol" JVal.null) then
          some (jlookupD r "Symbol" JVal.null)
        else none
      | _ => none with
  | some s => rfl
  | none =>
    rw [pickLoop2_eq_findSome _ h]
    cases rows.findSome? fun it =>
        match it with
        | JVal.obj r =>
          if pyTruthy (jlookupD r "Symbol" JVal.null) then some (jlookupD r "Symbol" JVal.null)
          else none
        | _ => none with
    | some s => rfl
    | none => rfl

/-- Witness for C5: the amended rule evaluated on the concrete ambiguous
search results. -/
theorem C5_witness :
    ambiguousRows.all isObj = true ∧
    pick_symbol ambiguousRows ["usdtry"] =
      .ok (pick_symbol_amendedModel ambiguousRows ["usdtry"]) :=
  ⟨by decide, C5_pick_symbol_amended ambiguousRows ["usdtry"] (by decide)⟩

/-- C6 counterexample: a present but undecodable manual-override document
is not treated as an empty override set — `load_json` re-raises the decode
error (it catches only the file-not-found case), and a run whose only
anomaly is the malformed manual document aborts instead of completing. -/
theorem C6_counterexample :
    load_json (FileState.present ParseOutcome.malformed) (JVal.obj []) = Except.error () ∧
    mainRun malformedManualWorld = Except.error () := by
  constructor
  · rfl
  · rfl

/-- C6 amended: only an absent manual-override document is treated as an
empty override set — `load_json` then returns the supplied default and the
run completes normally; a present but malformed or unreadable document
raises and aborts the run (shown by the counterexample). -/
theorem C6_absent_manual_treated_empty (w : World)
    (hm : w.manualFile = FileState.absent)
    (hp : priorFileSafe w.priorFile = true) :
    (∀ dflt : JVal, load_json FileState.absent dflt = .ok dflt) ∧
    ∃ s : Snapshot, mainRun w = .ok s := by
  refine ⟨fun dflt => rfl, ?_⟩
  obtain ⟨d, hd⟩ := mainItems_ok_of_safe w hp (by rw [hm]; rfl)
  exact ⟨⟨w.now, d.map fun p => JVal.obj p.2⟩,
    by simp [mainRun, hd, Except.bind, bind, pure, Except.pure]⟩

/-- Witness for C6: the amended statement on a concrete run with no manual
document on disk. -/
theorem C6_witness :
    absentManualWorld.manualFile = FileState.absent ∧
    priorFileSafe absentManualWorld.priorFile = true ∧
    ((∀ dflt : JVal, load_json FileState.absent dflt = .ok dflt) ∧
     ∃ s : Snapshot, mainRun absentManualWorld = .ok s) :=
  ⟨rfl, by decide, C6_absent_manual_treated_empty absentManualWorld rfl (by decide)⟩

/-- C7 counterexample: a failure inside the wci pipeline is not caught at
the indicator boundary — with every fetch pipeline succeeding and the
manual document decoding fine but carrying a number under "drewry_wci",
the attribute error raised by `wci.get("value", None)` aborts the whole
run before the final write. -/
theorem C7_counterexample :
    load_json wciCrashWorld.manualFile (JVal.obj []) =
      Except.ok (JVal.obj [("drewry_wci", JVal.num 5)]) ∧
    mainRun wciCrashWorld = Except.error () := by
  constructor
  · rfl
  · rfl

/-- C7 amended: exceptions in the usdtry, bdi and fbx pipelines are caught
at their `try` boundaries and converted to the null-value upsert (the
`except` branch upserts exactly what the success branch upserts for a null
value), so the run completes for arbitrary outcomes of those three
pipelines whenever the prior snapshot and the manual document are
well-shaped; the wci pipeline has no such boundary (see the
counterexample). -/
theorem C7_fetch_failures_absorbed (w : World)
    (hp : priorFileSafe w.priorFile = true)
    (hm : manualFileSafe w.manualFile = true) :
    (∀ (now : String) (d : Items) (e : Unit),
      runUsdtry now d (.error e) = runUsdtry now d (.ok none) ∧
      runBdi now d (.error e) = runBdi now d (.ok none) ∧
      runFbx now d (.error e) = runFbx now d (.ok ⟨none, none, none, none⟩)) ∧
    ∃ s : Snapshot, mainRun w = .ok s := by
  refine ⟨fun now d e => ⟨rfl, rfl, rfl⟩, ?_⟩
  obtain ⟨d, hd⟩ := mainItems_ok_of_safe w hp hm
  exact ⟨⟨w.now, d.map fun p => JVal.obj p.2⟩,
    by simp [mainRun, hd, Except.bind, bind, pure, Except.pure]⟩

/-- Witness for C7: a run in which all three fetch pipelines raise still
completes. -/
theorem C7_witness :
    priorFileSafe allFetchFailWorld.priorFile = true ∧
    manualFileSafe allFetchFailWorld.manualFile = true ∧
    ((∀ (now : String) (d : Items) (e : Unit),
      runUsdtry now d (.error e) = runUsdtry now d (.ok none) ∧
      runBdi now d (.error e) = runBdi now d (.ok none) ∧
      runFbx now d (.error e) = runFbx now d (.ok ⟨none, none, none, none⟩)) ∧
     ∃ s : Snapshot, mainRun allFetchFailWorld = .ok s) :=
  ⟨by decide, by decide, C7_fetch_failures_absorbed allFetchFailWorld (by decide) (by decide)⟩

/-- C8 counterexample: the write is not all-or-nothing — the script opens
the output file with mode "w", which truncates it before writing, so a
failure partway through the dump leaves a partial document, not the prior
snapshot; the prior content "old content" is destroyed. -/
theorem C8_counterexample :
    (save_json "new content" (some "old content") (WriteFault.midway 3)).1 =
      Except.error () ∧
    (save_json "new content" (some "old content") (WriteFault.midway 3)).2 =
      some "new" ∧
    some "new" ≠ some "old content" := by
  refine ⟨rfl, rfl, by decide⟩

/-- C8 amended: a failure at `open` (output path unwritable) is surfaced to
the caller and leaves the prior file untouched, and a successful write
replaces the content wholesale; but a failure after open leaves a
truncated prefix of the new document (last-writer-wins, in-place write —
no temporary-file-and-rename step exists in `save_json`). -/
theorem C8_write_fault_semantics (content : String) (prior : Option String) :
    save_json content prior WriteFault.atOpen = (Except.error (), prior) ∧
    save_json content prior WriteFault.success = (Except.ok (), some content) ∧
    ∀ k : Nat, save_json content prior (WriteFault.midway k) =
      (Except.error (), some (content.take k)) :=
  ⟨rfl, rfl, fun _ => rfl⟩

/-- C9: building the key mapping from the prior item list drops entries
that are not objects, lets the later of two entries sharing a key win, and
yields pairwise-distinct keys; upserts preserve key distinctness, so the
final mapping of any completed run holds at most one indicator per key. -/
theorem C9_key_mapping_sanitized (items : List JVal) :
    mkItemsByKey (items.filter isObj) = mkItemsByKey items ∧
    (∀ (d : Items) (k : JVal), mkItemsByKey items = .ok d →
      dlookup d k = lastObjWithKey items k) ∧
    (∀ d : Items, mkItemsByKey items = .ok d → keysFresh d = true) ∧
    (∀ (w : World) (d : Items), mainItems w = .ok d → keysFresh d = true) := by
  refine ⟨mkItemsByKeyAux_filter_isObj items [], ?_, ?_,
    fun w d h => keysFresh_mainItems w d h⟩
  · intro d k h
    rw [dlookup_mkItemsByKeyAux items [] d k h]
    cases lastObjWithKey items k <;> rfl
  · intro d h
    exact keysFresh_mkItemsByKeyAux items [] d rfl h

/-- Witness for C9: a malformed prior item list with a junk entry and a
duplicated "bdi" key collapses to a single mapping entry carrying the later
item. -/
theorem C9_witness :
    mkItemsByKey messyPriorItems =
      .ok [(JVal.str "bdi", [("key", JVal.str "bdi"), ("name", JVal.str "later wins")])] ∧
    dlookup [(JVal.str "bdi", [("key", JVal.str "bdi"), ("name", JVal.str "later wins")])]
        (JVal.str "bdi") =
      lastObjWithKey messyPriorItems (JVal.str "bdi") ∧
    keysFresh [(JVal.str "bdi", [("key", JVal.str "bdi"), ("name", JVal.str "later wins")])] =
      true :=
  ⟨rfl, (C9_key_mapping_sanitized messyPriorItems).2.1 _ (JVal.str "bdi") rfl,
   (C9_key_mapping_sanitized messyPriorItems).2.2.1 _ rfl⟩

/-- C10: appending a non-null value onto a corrupted series is safe — a
non-list stored series is treated as empty and produces the well-formed
one-entry series, and a non-object last element merely disables the
duplicate check (the entry is appended normally, no error is raised). -/
theorem C10_append_series_robust (now : String) (v : Rat) :
    (∀ e : JVal, (∀ l : List JVal, e ≠ JVal.arr l) →
      append_series now e (some v) = JVal.arr [seriesEntry now v]) ∧
    (∀ (xs : List JVal) (x : JVal), xs.getLast? = some x → isObj x = false →
      append_series now (JVal.arr xs) (some v) =
        JVal.arr (takeLast 120 (xs ++ [seriesEntry now v]))) := by
  constructor
  · intro e he
    cases e with
    | arr l => exact absurd rfl (he l)
    | null => rfl
    | bool b => rfl
    | num q => rfl
    | str s => rfl
    | obj kvs => rfl
  · intro xs x hx hobj
    have hd : lastIsDup xs v = false := by
      unfold lastIsDup
      rw [hx]
      cases x with
      | obj kxs => simp [isObj] at hobj
      | null => rfl
      | bool b => rfl
      | num q => rfl
      | str s => rfl
      | arr l => rfl
    simp [append_series, hd]

/-- Witness for C10: a string-valued series and a series ending in a bare
number both merge a fresh value without error. -/
theorem C10_witness :
    append_series "T" (JVal.str "oops") (some 3) = JVal.arr [seriesEntry "T" 3] ∧
    append_series "T" (JVal.arr [JVal.num 7]) (some 3) =
      JVal.arr (takeLast 120 ([JVal.num 7] ++ [seriesEntry "T" 3])) :=
  ⟨(C10_append_series_robust "T" 3).1 (JVal.str "oops") (fun _ h => JVal.noConfusion h),
   (C10_append_series_robust "T" 3).2 [JVal.num 7] (JVal.num 7) rfl rfl⟩
